import Mathlib

/-!
Shallow embedding of the satellite-trajectory FHE collision-check repository.

The repository's protocol logic lives in `src/tests/satelite_collision_test.rs`
(the two-party exchange pipeline) and `src/src/common.rs` (the bounded,
versioned serialization wrappers).  The homomorphic-encryption scheme itself
(tfhe) is an external library, consumed by the repository as opaque
primitives; those primitives are modelled here from the spec's external
interface section (KeyGen, Encrypt, Decrypt, Equal, And, SetActiveKey, and the
versioned size-bounded serializer).
-/

namespace SatFhe

/-- Modelled from the spec: KeyGen produces a fresh asymmetric pair — a
private decryption key and a public evaluation (server) key.  A pair is
identified by the seed of its generation; the two halves share that
identity, which is what `decrypt` and the homomorphic operators check. -/
structure ClientKey where
  id : Nat
deriving DecidableEq

/-- Modelled from the spec: the public evaluation half of a key pair. -/
structure ServerKey where
  id : Nat
deriving DecidableEq

/-- Modelled from the spec: KeyGen (`generate_keys` in the source).  The two
halves of a fresh pair share the generation seed as identity. -/
def generate_keys (seed : Nat) : ClientKey × ServerKey :=
  (⟨seed⟩, ⟨seed⟩)

/-- Modelled from the spec: an opaque ciphertext of a 32-bit unsigned
integer (`FheUint32`), recording the key it was produced under and the
plaintext it encrypts. -/
structure CtU32 where
  key : Nat
  val : Nat
deriving DecidableEq

/-- Modelled from the spec: an opaque ciphertext of a boolean (`FheBool`). -/
structure CtBool where
  key : Nat
  val : Bool
deriving DecidableEq

/-- The modulus of the `u32` plaintext type: 2^32. -/
def U32_MOD : Nat := 4294967296

/-- Modelled from the spec: `FheUint32::try_encrypt` — encryption of one
scalar under a party's private key; fails (range error) when the value is
outside the representable `u32` domain. -/
def try_encrypt_u32 (v : Nat) (ck : ClientKey) : Option CtU32 :=
  if v < U32_MOD then some ⟨ck.id, v⟩ else none

/-- Modelled from the spec: boolean decryption.  A ciphertext produced under
key K decrypts correctly only with the private half of K; decryption under a
different key yields an unspecified value that must never be relied upon,
modelled here as `none`. -/
def decrypt_bool (ck : ClientKey) (c : CtBool) : Option Bool :=
  if c.key = ck.id then some c.val else none

/-- Modelled from the spec: the type tag embedded in a versioned serialized
blob, one per transmissible scheme object type. -/
inductive Tag
  | fheUint32
  | fheBool
  | serverKey
deriving DecidableEq

/-- A transmissible scheme object: a coordinate ciphertext, a collision-flag
ciphertext, or an evaluation key. -/
inductive SchemeObj
  | u32ct : CtU32 → SchemeObj
  | boolct : CtBool → SchemeObj
  | skey : ServerKey → SchemeObj
deriving DecidableEq

/-- The type tag a scheme object carries in its serialized form. -/
def tagOf : SchemeObj → Tag
  | .u32ct _ => .fheUint32
  | .boolct _ => .fheBool
  | .skey _ => .serverKey

/-- Errors of the versioned serializer: the size-limit error on the encoding
side, and the three rejection reasons on the decoding side. -/
inductive SerError
  | sizeLimit
  | sizeExceeded
  | tagMismatch
  | badVersion
deriving DecidableEq

/-- Modelled from the spec: a `SerializedBlob` — a size-bounded buffer
carrying an embedded type tag and version; the payload itself is opaque and
is modelled as the scheme object it encodes. -/
structure Blob where
  tag : Tag
  version : Nat
  size : Nat
  data : SchemeObj
deriving DecidableEq

/-- The single version the modelled codec currently supports. -/
def CURRENT_VERSION : Nat := 0

/-- Modelled from the spec: tfhe's `safe_serialize` — versioned encoding,
parameterized by a maximum-byte-size bound; fails with a size-limit error
when the encoded representation (whose size is given by the codec's size
function `sz`) would exceed the bound. -/
def safe_serialize (sz : SchemeObj → Nat) (o : SchemeObj) (bound : Nat) :
    Except SerError Blob :=
  if bound < sz o then .error .sizeLimit
  else .ok ⟨tagOf o, CURRENT_VERSION, sz o, o⟩

/-- Modelled from the spec: tfhe's `safe_deserialize` — rejects a blob whose
size exceeds the bound, whose embedded type tag does not match the expected
destination type, or whose version is unsupported; otherwise returns the
decoded object whole (all-or-nothing). -/
def safe_deserialize (expected : Tag) (bound : Nat) (b : Blob) :
    Except SerError SchemeObj :=
  if bound < b.size then .error .sizeExceeded
  else if b.tag = expected then
    if b.version = CURRENT_VERSION then .ok b.data
    else .error .badVersion
  else .error .tagMismatch

/-- The fixed bound used by `common.rs`: `1 << 20` bytes (1 MiB). -/
def SERIAL_BOUND : Nat := 1 <<< 20

/-- From `src/src/common.rs`: `safe_serialize_item` — serialize one scheme
object with the fixed 1 MiB bound. -/
def safe_serialize_item (sz : SchemeObj → Nat) (item : SchemeObj) :
    Except SerError Blob :=
  safe_serialize sz item SERIAL_BOUND

/-- From `src/src/common.rs`: `safe_deserialize_item` — deserialize one
scheme object with the fixed 1 MiB bound. -/
def safe_deserialize_item (expected : Tag) (b : Blob) :
    Except SerError SchemeObj :=
  safe_deserialize expected SERIAL_BOUND b

/-- Modelled from the code's use of `bincode::serialize` for server keys: an
unversioned, unbounded encoding of an evaluation key. -/
structure BincodeKeyBlob where
  data : ServerKey
deriving DecidableEq

/-- The `bincode::serialize(&server_key)` calls of the test pipeline. -/
def bincode_serialize_key (k : ServerKey) : BincodeKeyBlob :=
  ⟨k⟩

/-- The `bincode::deserialize::<ServerKey>` calls of the test pipeline. -/
def bincode_deserialize_key (b : BincodeKeyBlob) : ServerKey :=
  b.data

/-- From `src/src/common.rs`: satellite trajectory data, three coordinate
axes sampled at a common sequence of time indices.  The source fixes
`[u32; 3]`; the list form supports the spec's arbitrary N with length-3 the
concrete instance. -/
structure SatelliteData where
  x : List Nat
  y : List Nat
  z : List Nat
deriving DecidableEq

/-- The serialization mechanism an object went through: the versioned,
size-bounded adapter of `common.rs`, or plain bincode. -/
inductive SerMethod
  | safeVersioned
  | bincode
deriving DecidableEq

/-- The kind of transmitted object, for the observation trace. -/
inductive ObjKind
  | coordCt
  | flagCt
  | evalKey
deriving DecidableEq

/-- Observable events of a pipeline run: a serialization call (with the kind
of object and the mechanism used), a `set_server_key` call (with the id of
the key installed), and a homomorphic operation (with the key id of the
ciphertext operand it was invoked on). -/
inductive Event
  | serialized : ObjKind → SerMethod → Event
  | setServerKey : Nat → Event
  | hop : Nat → Event
deriving DecidableEq

/-- Errors of the evaluation step: an out-of-range index access (the caller
contract error), or a homomorphic operation invoked with no or with a
mismatched active server key. -/
inductive EvalError
  | indexOutOfRange
  | missingServerKey
  | wrongServerKey
deriving DecidableEq

/-- Errors a pipeline run can abort with, tagged by the stage at fault. -/
inductive PipeError
  | encryptRange
  | ser : SerError → PipeError
  | deser : SerError → PipeError
  | eval : EvalError → PipeError
  | decryptWrongKey
deriving DecidableEq

/-- Sequencing of event-emitting fallible steps: on failure the error and the
events emitted so far are kept; on success the continuation's events are
appended after. -/
def wbind {α β : Type} (r : Except PipeError α × List Event)
    (f : α → Except PipeError β × List Event) :
    Except PipeError β × List Event :=
  match r with
  | (.error e, evs) => (.error e, evs)
  | (.ok a, evs) =>
    match f a with
    | (rb, evs2) => (rb, evs ++ evs2)

/-- A step that emits no events. -/
def wlift {α : Type} (r : Except PipeError α) :
    Except PipeError α × List Event :=
  (r, [])

/-- The per-axis encryption maps of the pipeline
(`sat.x.iter().map(|&v| FheUint32::try_encrypt(v, &client_key).unwrap())`):
each scalar is encrypted independently; the first range failure aborts the
whole axis. -/
def encryptAxis (ck : ClientKey) : List Nat → Except PipeError (List CtU32)
  | [] => .ok []
  | v :: vs =>
    match try_encrypt_u32 v ck with
    | none => .error .encryptRange
    | some c =>
      match encryptAxis ck vs with
      | .error e => .error e
      | .ok cs => .ok (c :: cs)

/-- The per-axis ciphertext serialization maps of the pipeline
(`enc.iter().map(|ct| safe_serialize_item(ct).unwrap())`), emitting one
trace event per item. -/
def serializeCtAxis (sz : SchemeObj → Nat) :
    List CtU32 → Except PipeError (List Blob) × List Event
  | [] => (.ok [], [])
  | c :: cs =>
    match safe_serialize_item sz (.u32ct c) with
    | .error e => (.error (.ser e), [.serialized .coordCt .safeVersioned])
    | .ok b =>
      match serializeCtAxis sz cs with
      | (.error e, evs) => (.error e, .serialized .coordCt .safeVersioned :: evs)
      | (.ok bs, evs) => (.ok (b :: bs), .serialized .coordCt .safeVersioned :: evs)

/-- The collision-flag serialization maps of the pipeline
(`collision_ciphertexts.iter().map(|cb| safe_serialize_item(cb).unwrap())`). -/
def serializeFlagAxis (sz : SchemeObj → Nat) :
    List CtBool → Except PipeError (List Blob) × List Event
  | [] => (.ok [], [])
  | c :: cs =>
    match safe_serialize_item sz (.boolct c) with
    | .error e => (.error (.ser e), [.serialized .flagCt .safeVersioned])
    | .ok b =>
      match serializeFlagAxis sz cs with
      | (.error e, evs) => (.error e, .serialized .flagCt .safeVersioned :: evs)
      | (.ok bs, evs) => (.ok (b :: bs), .serialized .flagCt .safeVersioned :: evs)

/-- The per-axis ciphertext deserialization maps of the pipeline
(`ser.iter().map(|bytes| safe_deserialize_item(bytes).unwrap())`), typed at
`FheUint32`. -/
def deserializeCtAxis : List Blob → Except PipeError (List CtU32)
  | [] => .ok []
  | b :: bs =>
    match safe_deserialize_item .fheUint32 b with
    | .error e => .error (.deser e)
    | .ok (.u32ct c) =>
      match deserializeCtAxis bs with
      | .error e => .error e
      | .ok cs => .ok (c :: cs)
    | .ok _ => .error (.deser .tagMismatch)

/-- The collision-flag deserialization maps of the pipeline, typed at
`FheBool`. -/
def deserializeFlagAxis : List Blob → Except PipeError (List CtBool)
  | [] => .ok []
  | b :: bs =>
    match safe_deserialize_item .fheBool b with
    | .error e => .error (.deser e)
    | .ok (.boolct c) =>
      match deserializeFlagAxis bs with
      | .error e => .error e
      | .ok cs => .ok (c :: cs)
    | .ok _ => .error (.deser .tagMismatch)

/-- The decryption loop of the pipeline
(`ciph_bool.decrypt(&client_key)` per flag). -/
def decryptFlags (ck : ClientKey) : List CtBool → Except PipeError (List Bool)
  | [] => .ok []
  | c :: cs =>
    match decrypt_bool ck c with
    | none => .error .decryptWrongKey
    | some b =>
      match decryptFlags ck cs with
      | .error e => .error e
      | .ok bs => .ok (b :: bs)

/-- The reporting loop of the pipeline: `collision_found` starts `false` and
is set `true` at every decrypted flag that is `true`. -/
def reportCollision (flags : List Bool) : Bool :=
  flags.foldl (fun acc b => if b then true else acc) false

/-- Modelled from the spec: the homomorphic ciphertext-vs-plaintext equality
operator (`FheUint32::eq`), legal only while the matching evaluation key is
active; emits one homomorphic-operation trace event. -/
def fheEq (active : Option Nat) (c : CtU32) (p : Nat) :
    Except PipeError CtBool × List Event :=
  (match active with
   | none => .error (.eval .missingServerKey)
   | some k =>
     if k = c.key then .ok ⟨c.key, c.val == p⟩
     else .error (.eval .wrongServerKey),
   [.hop c.key])

/-- Modelled from the spec: the homomorphic AND operator (`&` on `FheBool`),
legal only while the evaluation key matching both operands is active; emits
one homomorphic-operation trace event per operand. -/
def fheAnd (active : Option Nat) (a b : CtBool) :
    Except PipeError CtBool × List Event :=
  (match active with
   | none => .error (.eval .missingServerKey)
   | some k =>
     if k = a.key ∧ k = b.key then .ok ⟨a.key, a.val && b.val⟩
     else .error (.eval .wrongServerKey),
   [.hop a.key, .hop b.key])

/-- An index access into a ciphertext axis (`dec_enc[i]`); out of range is
the caller contract error. -/
def ctIdx (l : List CtU32) (i : Nat) : Except PipeError CtU32 :=
  match l[i]? with
  | some c => .ok c
  | none => .error (.eval .indexOutOfRange)

/-- An index access into a plaintext axis (`sat.x[i]`). -/
def natIdx (l : List Nat) (i : Nat) : Except PipeError Nat :=
  match l[i]? with
  | some v => .ok v
  | none => .error (.eval .indexOutOfRange)

/-- One iteration of the evaluation loop, exactly in source order:
`eq_x = cipher_x[i].eq(plain.x[i])`, likewise `eq_y`, `eq_z`, then
`collision = eq_x & eq_y & eq_z` (left-associated). -/
def evalIndex (active : Option Nat) (cx cy cz : List CtU32)
    (p : SatelliteData) (i : Nat) : Except PipeError CtBool × List Event :=
  wbind (wlift (ctIdx cx i)) fun cxi =>
  wbind (wlift (natIdx p.x i)) fun pxi =>
  wbind (fheEq active cxi pxi) fun eq_x =>
  wbind (wlift (ctIdx cy i)) fun cyi =>
  wbind (wlift (natIdx p.y i)) fun pyi =>
  wbind (fheEq active cyi pyi) fun eq_y =>
  wbind (wlift (ctIdx cz i)) fun czi =>
  wbind (wlift (natIdx p.z i)) fun pzi =>
  wbind (fheEq active czi pzi) fun eq_z =>
  wbind (fheAnd active eq_x eq_y) fun c1 =>
  fheAnd active c1 eq_z

/-- The evaluation loop over a list of time indices, collecting the
collision-flag ciphertexts in iteration order. -/
def evalIndices (active : Option Nat) (cx cy cz : List CtU32)
    (p : SatelliteData) : List Nat → Except PipeError (List CtBool) × List Event
  | [] => (.ok [], [])
  | i :: is =>
    wbind (evalIndex active cx cy cz p i) fun c =>
    wbind (evalIndices active cx cy cz p is) fun cs =>
    (.ok (c :: cs), [])

/-- The Equality Evaluator: `for i in 0..plain.x.len()`, computing one
encrypted collision flag per time index under the active evaluation key. -/
def evaluate_collisions (active : Option Nat) (cx cy cz : List CtU32)
    (p : SatelliteData) : Except PipeError (List CtBool) × List Event :=
  evalIndices active cx cy cz p (List.range p.x.length)

/-- The sending party's phase (pipeline steps 1 and the key hand-off):
encrypt the own trajectory per axis under the own client key, serialize each
coordinate ciphertext through the bounded versioned adapter, then serialize
the own server key with bincode. -/
def sendPhase (sz : SchemeObj → Nat) (own : SatelliteData) (ck : ClientKey)
    (sk : ServerKey) :
    Except PipeError (List Blob × List Blob × List Blob × BincodeKeyBlob) ×
      List Event :=
  wbind (wlift (encryptAxis ck own.x)) fun ex =>
  wbind (wlift (encryptAxis ck own.y)) fun ey =>
  wbind (wlift (encryptAxis ck own.z)) fun ez =>
  wbind (serializeCtAxis sz ex) fun b1 =>
  wbind (serializeCtAxis sz ey) fun b2 =>
  wbind (serializeCtAxis sz ez) fun b3 =>
  (.ok (b1, b2, b3, bincode_serialize_key sk), [.serialized .evalKey .bincode])

/-- The evaluating party's phase (pipeline step 2): deserialize the received
coordinate ciphertexts, bincode-deserialize the counterpart's server key,
install it with `set_server_key`, run the evaluation loop against the own
plaintext trajectory, and serialize the resulting flag ciphertexts.  Returns
the active-key slot as left by the phase. -/
def evalPhase (sz : SchemeObj → Nat) (b1 b2 b3 : List Blob)
    (kb : BincodeKeyBlob) (cp : SatelliteData) (active0 : Option Nat) :
    Except PipeError (List Blob) × List Event × Option Nat :=
  match deserializeCtAxis b1 with
  | .error e => (.error e, [], active0)
  | .ok dx =>
    match deserializeCtAxis b2 with
    | .error e => (.error e, [], active0)
    | .ok dy =>
      match deserializeCtAxis b3 with
      | .error e => (.error e, [], active0)
      | .ok dz =>
        let sk := bincode_deserialize_key kb
        let active := some sk.id
        match evaluate_collisions active dx dy dz cp with
        | (.error e, evs) => (.error e, .setServerKey sk.id :: evs, active)
        | (.ok flags, evs) =>
          match serializeFlagAxis sz flags with
          | (.error e, evs2) =>
            (.error e, .setServerKey sk.id :: (evs ++ evs2), active)
          | (.ok fb, evs2) =>
            (.ok fb, .setServerKey sk.id :: (evs ++ evs2), active)

/-- The encrypting party's receiving phase (pipeline step 3): deserialize
the returned flag ciphertexts, decrypt each with the own client key, and
fold the reported collision boolean. -/
def receivePhase (ck : ClientKey) (fb : List Blob) :
    Except PipeError (List Bool × Bool) :=
  match deserializeFlagAxis fb with
  | .error e => .error e
  | .ok flags =>
    match decryptFlags ck flags with
    | .error e => .error e
    | .ok bs => .ok (bs, reportCollision bs)

/-- One direction of the exchange (pipeline steps 1–3): the owner of
`(ck, sk)` encrypts and sends `own`, the counterpart evaluates against its
plaintext `cp`, the owner decrypts the returned flags. -/
def direction (sz : SchemeObj → Nat) (own : SatelliteData) (ck : ClientKey)
    (sk : ServerKey) (cp : SatelliteData) (active0 : Option Nat) :
    Except PipeError (List Bool × Bool) × List Event × Option Nat :=
  match sendPhase sz own ck sk with
  | (.error e, evs) => (.error e, evs, active0)
  | (.ok (b1, b2, b3, kb), evs) =>
    match evalPhase sz b1 b2 b3 kb cp active0 with
    | (.error e, evs2, a) => (.error e, evs ++ evs2, a)
    | (.ok fb, evs2, a) =>
      match receivePhase ck fb with
      | .error e => (.error e, evs ++ evs2, a)
      | .ok r => (.ok r, evs ++ evs2, a)

/-- The full two-direction exchange of the test pipeline: party A (keys from
`seedA`) sends `satA` for evaluation against `satB`, then party B (keys from
`seedB`) sends `satB` for evaluation against `satA`.  Yields both parties'
decrypted results, the full event trace, and the final active-key slot. -/
def run_exchange (sz : SchemeObj → Nat) (satA satB : SatelliteData)
    (seedA seedB : Nat) :
    Except PipeError ((List Bool × Bool) × (List Bool × Bool)) ×
      List Event × Option Nat :=
  let kA := generate_keys seedA
  let kB := generate_keys seedB
  match direction sz satA kA.1 kA.2 satB none with
  | (.error e, evs, a) => (.error e, evs, a)
  | (.ok r1, evs1, a1) =>
    match direction sz satB kB.1 kB.2 satA a1 with
    | (.error e, evs2, a2) => (.error e, evs1 ++ evs2, a2)
    | (.ok r2, evs2, a2) => (.ok (r1, r2), evs1 ++ evs2, a2)

/-- Whether the two trajectories coincide on all three axes at index `i`. -/
def collidesAt (a b : SatelliteData) (i : Nat) : Bool :=
  (a.x.getD i 0 == b.x.getD i 0) && (a.y.getD i 0 == b.y.getD i 0) &&
    (a.z.getD i 0 == b.z.getD i 0)

/-- The plaintext-level collision sequence one direction of the exchange is
meant to compute: one flag per time index of the evaluator's plaintext. -/
def collisionSpec (a b : SatelliteData) : List Bool :=
  (List.range b.x.length).map (collidesAt a b)

/-- The `sat1` reference trajectory of both tests. -/
def sat1 : SatelliteData :=
  ⟨[100, 101, 102], [200, 201, 202], [300, 301, 302]⟩

/-- The `sat2` trajectory of the no-collision test: no index matches `sat1`
on all three axes. -/
def sat2_apart : SatelliteData :=
  ⟨[101, 401, 102], [200, 201, 202], [300, 601, 602]⟩

/-- The `sat2` trajectory of the collision test: index 0 equals `sat1`'s
triple, indices 1 and 2 differ on every axis. -/
def sat2_meet : SatelliteData :=
  ⟨[100, 401, 402], [200, 501, 502], [300, 601, 602]⟩

/-- A codec size function assigning size 0 to every object; used to
instantiate witnesses. -/
def szZero : SchemeObj → Nat := fun _ => 0

/-- The blob the adapter produces for a coordinate ciphertext. -/
def ctBlob (sz : SchemeObj → Nat) (c : CtU32) : Blob :=
  ⟨.fheUint32, CURRENT_VERSION, sz (.u32ct c), .u32ct c⟩

/-- The blob the adapter produces for a collision-flag ciphertext. -/
def flagBlob (sz : SchemeObj → Nat) (c : CtBool) : Blob :=
  ⟨.fheBool, CURRENT_VERSION, sz (.boolct c), .boolct c⟩

/-- The event trace one direction of a successful exchange emits, for axis
length `N` under key pair `s`: the 3N coordinate serializations through the
versioned adapter, the bincode key serialization, the key activation, the 7N
homomorphic operations, and the N flag serializations. -/
def directionEvents (N s : Nat) : List Event :=
  List.replicate N (.serialized .coordCt .safeVersioned) ++
    (List.replicate N (.serialized .coordCt .safeVersioned) ++
      (List.replicate N (.serialized .coordCt .safeVersioned) ++
        ([.serialized .evalKey .bincode] ++
          (Event.setServerKey s ::
            (List.replicate (7 * N) (.hop s) ++
              List.replicate N (.serialized .flagCt .safeVersioned))))))

/-- The active-key discipline check over an event trace: scanning the trace
with the currently installed server key (updated at every `setServerKey`
event), every homomorphic operation must find the key of its ciphertext
operand installed. -/
def keyDisc : Option Nat → List Event → Bool
  | _, [] => true
  | _, .setServerKey k :: r => keyDisc (some k) r
  | a, .hop k :: r => (a == some k) && keyDisc a r
  | a, .serialized _ _ :: r => keyDisc a r

/-- Whether an event is a `set_server_key` call. -/
def isActivation : Event → Bool
  | .setServerKey _ => true
  | _ => false

/-- The serialization-mechanism check over an event trace: coordinate and
collision-flag ciphertexts go through the versioned bounded adapter,
evaluation keys through bincode. -/
def serMethodsOk : List Event → Bool
  | [] => true
  | .serialized .evalKey m :: r => (m == .bincode) && serMethodsOk r
  | .serialized .coordCt m :: r => (m == .safeVersioned) && serMethodsOk r
  | .serialized .flagCt m :: r => (m == .safeVersioned) && serMethodsOk r
  | .setServerKey _ :: r => serMethodsOk r
  | .hop _ :: r => serMethodsOk r

/-- C4: for every scheme object the protocol transmits, deserializing its
serialization returns the object exactly — the bounded versioned item
round-trip used for coordinate and collision-flag ciphertexts, and the
bincode round-trip used for evaluation keys. -/
theorem serde_roundtrip_identity :
    (∀ (sz : SchemeObj → Nat) (o : SchemeObj) (b : Blob),
      safe_serialize_item sz o = .ok b →
        safe_deserialize_item (tagOf o) b = .ok o) ∧
    (∀ k : ServerKey, bincode_deserialize_key (bincode_serialize_key k) = k) := by
  constructor
  · intro sz o b h
    unfold safe_serialize_item safe_serialize at h
    split at h
    · exact absurd h (by simp)
    · rename_i hle
      simp only [Except.ok.injEq] at h
      subst h
      unfold safe_deserialize_item safe_deserialize
      simp [hle]
  · intro k
    rfl

/-- Closed instance of the round-trip theorem at a concrete server-key
object and a concrete key. -/
theorem serde_roundtrip_identity_w :
    safe_deserialize_item (tagOf (.skey ⟨5⟩)) ⟨.serverKey, 0, 0, .skey ⟨5⟩⟩ =
      .ok (.skey ⟨5⟩) ∧
    bincode_deserialize_key (bincode_serialize_key ⟨7⟩) = ⟨7⟩ :=
  ⟨serde_roundtrip_identity.1 (fun _ => 0) (.skey ⟨5⟩) ⟨.serverKey, 0, 0, .skey ⟨5⟩⟩ rfl,
   serde_roundtrip_identity.2 ⟨7⟩⟩

/-- C6: serialization fails with the size-limit error exactly when the
encoding would exceed the 1 MiB bound, and deserialization rejects — with a
format error and no partially constructed object — any blob that is
oversized, carries a mismatched type tag, or an unsupported version. -/
theorem serialization_size_and_format_guards :
    (∀ (sz : SchemeObj → Nat) (o : SchemeObj), SERIAL_BOUND < sz o →
      safe_serialize_item sz o = .error .sizeLimit) ∧
    (∀ (sz : SchemeObj → Nat) (o : SchemeObj), sz o ≤ SERIAL_BOUND →
      safe_serialize_item sz o = .ok ⟨tagOf o, CURRENT_VERSION, sz o, o⟩) ∧
    (∀ (t : Tag) (b : Blob), SERIAL_BOUND < b.size →
      safe_deserialize_item t b = .error .sizeExceeded) ∧
    (∀ (t : Tag) (b : Blob), b.size ≤ SERIAL_BOUND → b.tag ≠ t →
      safe_deserialize_item t b = .error .tagMismatch) ∧
    (∀ (t : Tag) (b : Blob), b.size ≤ SERIAL_BOUND → b.tag = t →
      b.version ≠ CURRENT_VERSION →
      safe_deserialize_item t b = .error .badVersion) := by
  refine ⟨?_, ?_, ?_, ?_, ?_⟩
  · intro sz o h
    unfold safe_serialize_item safe_serialize
    simp [h]
  · intro sz o h
    unfold safe_serialize_item safe_serialize
    simp [Nat.not_lt.mpr h]
  · intro t b h
    unfold safe_deserialize_item safe_deserialize
    simp [h]
  · intro t b hsz htag
    unfold safe_deserialize_item safe_deserialize
    simp [Nat.not_lt.mpr hsz, htag]
  · intro t b hsz htag hv
    unfold safe_deserialize_item safe_deserialize
    simp [Nat.not_lt.mpr hsz, htag, hv]

/-- Closed instances of the serialization guards: an oversized encoding is
refused, an in-bound one succeeds, and oversized, wrongly tagged, and
wrongly versioned blobs are each rejected with the corresponding error. -/
theorem serialization_size_and_format_guards_w :
    safe_serialize_item (fun _ => SERIAL_BOUND + 1) (.skey ⟨0⟩) = .error .sizeLimit ∧
    safe_serialize_item (fun _ => 4) (.skey ⟨0⟩) =
      .ok ⟨.serverKey, CURRENT_VERSION, 4, .skey ⟨0⟩⟩ ∧
    safe_deserialize_item .fheBool ⟨.fheBool, 0, SERIAL_BOUND + 1, .boolct ⟨0, true⟩⟩ =
      .error .sizeExceeded ∧
    safe_deserialize_item .fheUint32 ⟨.fheBool, 0, 8, .boolct ⟨0, true⟩⟩ =
      .error .tagMismatch ∧
    safe_deserialize_item .fheBool ⟨.fheBool, 3, 8, .boolct ⟨0, true⟩⟩ =
      .error .badVersion :=
  ⟨serialization_size_and_format_guards.1 _ _ (Nat.lt_succ_self _),
   serialization_size_and_format_guards.2.1 _ _ (by decide),
   serialization_size_and_format_guards.2.2.1 _ _ (Nat.lt_succ_self _),
   serialization_size_and_format_guards.2.2.2.1 _ _ (by decide) (by decide),
   serialization_size_and_format_guards.2.2.2.2 _ _ (by decide) rfl (by decide)⟩

theorem safe_serialize_item_ok (sz : SchemeObj → Nat) (o : SchemeObj)
    (h : sz o ≤ SERIAL_BOUND) :
    safe_serialize_item sz o = .ok ⟨tagOf o, CURRENT_VERSION, sz o, o⟩ := by
  unfold safe_serialize_item safe_serialize
  simp [Nat.not_lt.mpr h]

theorem safe_deserialize_item_mk (o : SchemeObj) (n : Nat)
    (h : n ≤ SERIAL_BOUND) :
    safe_deserialize_item (tagOf o) ⟨tagOf o, CURRENT_VERSION, n, o⟩ = .ok o := by
  unfold safe_deserialize_item safe_deserialize
  simp [Nat.not_lt.mpr h]

theorem encryptAxis_ok (ck : ClientKey) (vs : List Nat)
    (h : ∀ v ∈ vs, v < U32_MOD) :
    encryptAxis ck vs = .ok (vs.map fun v => ⟨ck.id, v⟩) := by
  induction vs with
  | nil => rfl
  | cons v vs ih =>
    have hv : v < U32_MOD := h v (List.mem_cons_self v vs)
    have ht : ∀ w ∈ vs, w < U32_MOD := fun w hw => h w (List.mem_cons_of_mem v hw)
    simp [encryptAxis, try_encrypt_u32, hv, ih ht]

theorem serializeCtAxis_ok (sz : SchemeObj → Nat)
    (hsz : ∀ o, sz o ≤ SERIAL_BOUND) (cs : List CtU32) :
    serializeCtAxis sz cs =
      (.ok (cs.map (ctBlob sz)),
       List.replicate cs.length (.serialized .coordCt .safeVersioned)) := by
  induction cs with
  | nil => rfl
  | cons c cs ih =>
    simp [serializeCtAxis, safe_serialize_item_ok sz (.u32ct c) (hsz _), ih,
      ctBlob, tagOf, List.replicate_succ]

theorem serializeFlagAxis_ok (sz : SchemeObj → Nat)
    (hsz : ∀ o, sz o ≤ SERIAL_BOUND) (cs : List CtBool) :
    serializeFlagAxis sz cs =
      (.ok (cs.map (flagBlob sz)),
       List.replicate cs.length (.serialized .flagCt .safeVersioned)) := by
  induction cs with
  | nil => rfl
  | cons c cs ih =>
    simp [serializeFlagAxis, safe_serialize_item_ok sz (.boolct c) (hsz _), ih,
      flagBlob, tagOf, List.replicate_succ]

theorem deserializeCtAxis_roundtrip (sz : SchemeObj → Nat)
    (hsz : ∀ o, sz o ≤ SERIAL_BOUND) (cs : List CtU32) :
    deserializeCtAxis (cs.map (ctBlob sz)) = .ok cs := by
  induction cs with
  | nil => rfl
  | cons c cs ih =>
    have h : safe_deserialize_item .fheUint32 (ctBlob sz c) = .ok (.u32ct c) :=
      safe_deserialize_item_mk (.u32ct c) _ (hsz _)
    simp [deserializeCtAxis, ctBlob] at h ⊢
    simp [h, ih]

theorem deserializeFlagAxis_roundtrip (sz : SchemeObj → Nat)
    (hsz : ∀ o, sz o ≤ SERIAL_BOUND) (cs : List CtBool) :
    deserializeFlagAxis (cs.map (flagBlob sz)) = .ok cs := by
  induction cs with
  | nil => rfl
  | cons c cs ih =>
    have h : safe_deserialize_item .fheBool (flagBlob sz c) = .ok (.boolct c) :=
      safe_deserialize_item_mk (.boolct c) _ (hsz _)
    simp [deserializeFlagAxis, flagBlob] at h ⊢
    simp [h, ih]

theorem decryptFlags_ok (ck : ClientKey) (cs : List CtBool)
    (h : ∀ c ∈ cs, c.key = ck.id) :
    decryptFlags ck cs = .ok (cs.map CtBool.val) := by
  induction cs with
  | nil => rfl
  | cons c cs ih =>
    have hc : c.key = ck.id := h c (List.mem_cons_self c cs)
    have ht : ∀ d ∈ cs, d.key = ck.id := fun d hd => h d (List.mem_cons_of_mem c hd)
    simp [decryptFlags, decrypt_bool, hc, ih ht]

theorem evalIndex_ok (s : Nat) (cx cy cz : List CtU32) (p : SatelliteData)
    (i : Nat) (cxi cyi czi : CtU32) (pxv pyv pzv : Nat)
    (hx : cx[i]? = some cxi) (hy : cy[i]? = some cyi) (hz : cz[i]? = some czi)
    (hpx : p.x[i]? = some pxv) (hpy : p.y[i]? = some pyv)
    (hpz : p.z[i]? = some pzv)
    (hkx : cxi.key = s) (hky : cyi.key = s) (hkz : czi.key = s) :
    evalIndex (some s) cx cy cz p i =
      (.ok ⟨s, ((cxi.val == pxv) && (cyi.val == pyv)) && (czi.val == pzv)⟩,
       List.replicate 7 (.hop s)) := by
  simp [evalIndex, wbind, wlift, ctIdx, natIdx, fheEq, fheAnd,
    hx, hy, hz, hpx, hpy, hpz, hkx, hky, hkz, List.replicate_succ]

theorem evalIndices_ok (s : Nat) (dct : CtU32) (cx cy cz : List CtU32)
    (p : SatelliteData) (N : Nat) (il : List Nat)
    (hkx : ∀ c ∈ cx, c.key = s) (hky : ∀ c ∈ cy, c.key = s)
    (hkz : ∀ c ∈ cz, c.key = s)
    (hlx : N ≤ cx.length) (hly : N ≤ cy.length) (hlz : N ≤ cz.length)
    (hpx : N ≤ p.x.length) (hpy : N ≤ p.y.length) (hpz : N ≤ p.z.length)
    (hil : ∀ i ∈ il, i < N) :
    evalIndices (some s) cx cy cz p il =
      (.ok (il.map fun i =>
        ⟨s, (((cx.getD i dct).val == p.x.getD i 0) &&
             ((cy.getD i dct).val == p.y.getD i 0)) &&
            ((cz.getD i dct).val == p.z.getD i 0)⟩),
       List.replicate (7 * il.length) (.hop s)) := by
  induction il with
  | nil => rfl
  | cons i il ih =>
    have hi : i < N := hil i (List.mem_cons_self i il)
    have hrest : ∀ j ∈ il, j < N := fun j hj => hil j (List.mem_cons_of_mem i hj)
    have hgx : cx[i]? = some (cx.getD i dct) := by
      rw [List.getD_eq_getElem?_getD, List.getElem?_eq_getElem (Nat.lt_of_lt_of_le hi hlx)]
      rfl
    have hgy : cy[i]? = some (cy.getD i dct) := by
      rw [List.getD_eq_getElem?_getD, List.getElem?_eq_getElem (Nat.lt_of_lt_of_le hi hly)]
      rfl
    have hgz : cz[i]? = some (cz.getD i dct) := by
      rw [List.getD_eq_getElem?_getD, List.getElem?_eq_getElem (Nat.lt_of_lt_of_le hi hlz)]
      rfl
    have hgpx : p.x[i]? = some (p.x.getD i 0) := by
      rw [List.getD_eq_getElem?_getD, List.getElem?_eq_getElem (Nat.lt_of_lt_of_le hi hpx)]
      rfl
    have hgpy : p.y[i]? = some (p.y.getD i 0) := by
      rw [List.getD_eq_getElem?_getD, List.getElem?_eq_getElem (Nat.lt_of_lt_of_le hi hpy)]
      rfl
    have hgpz : p.z[i]? = some (p.z.getD i 0) := by
      rw [List.getD_eq_getElem?_getD, List.getElem?_eq_getElem (Nat.lt_of_lt_of_le hi hpz)]
      rfl
    have hmemx : i < cx.length := Nat.lt_of_lt_of_le hi hlx
    have hmemy : i < cy.length := Nat.lt_of_lt_of_le hi hly
    have hmemz : i < cz.length := Nat.lt_of_lt_of_le hi hlz
    have hmx : (cx.getD i dct).key = s := by
      apply hkx
      rw [List.getD_eq_getElem?_getD, List.getElem?_eq_getElem hmemx]
      exact List.getElem_mem hmemx
    have hmy : (cy.getD i dct).key = s := by
      apply hky
      rw [List.getD_eq_getElem?_getD, List.getElem?_eq_getElem hmemy]
      exact List.getElem_mem hmemy
    have hmz : (cz.getD i dct).key = s := by
      apply hkz
      rw [List.getD_eq_getElem?_getD, List.getElem?_eq_getElem hmemz]
      exact List.getElem_mem hmemz
    have hstep := evalIndex_ok s cx cy cz p i _ _ _ _ _ _
      hgx hgy hgz hgpx hgpy hgpz hmx hmy hmz
    have harith : 7 * (il.length + 1) = 7 + 7 * il.length := by omega
    simp [evalIndices, wbind, hstep, ih hrest, List.length_cons, harith,
      List.replicate_add]

theorem getD_map_ct (s : Nat) (l : List Nat) (i : Nat) (dct : CtU32)
    (h : i < l.length) :
    (l.map fun v => (⟨s, v⟩ : CtU32)).getD i dct = ⟨s, l.getD i 0⟩ := by
  rw [List.getD_eq_getElem?_getD, List.getD_eq_getElem?_getD, List.getElem?_map,
    List.getElem?_eq_getElem h]
  rfl

theorem evaluate_collisions_enc (s : Nat) (own cp : SatelliteData) (N : Nat)
    (h1 : own.x.length = N) (h2 : own.y.length = N) (h3 : own.z.length = N)
    (h4 : cp.x.length = N) (h5 : cp.y.length = N) (h6 : cp.z.length = N) :
    evaluate_collisions (some s)
        (own.x.map fun v => ⟨s, v⟩) (own.y.map fun v => ⟨s, v⟩)
        (own.z.map fun v => ⟨s, v⟩) cp =
      (.ok ((List.range cp.x.length).map fun i =>
        (⟨s, collidesAt own cp i⟩ : CtBool)),
       List.replicate (7 * cp.x.length) (.hop s)) := by
  have hk : ∀ l : List Nat, ∀ c ∈ l.map fun v => (⟨s, v⟩ : CtU32), c.key = s := by
    intro l c hc
    rcases List.mem_map.mp hc with ⟨v, _, rfl⟩
    rfl
  have hil : ∀ i ∈ List.range cp.x.length, i < N := by
    intro i hi
    rw [← h4]
    exact List.mem_range.mp hi
  rw [evaluate_collisions,
    evalIndices_ok s ⟨s, 0⟩ _ _ _ cp N _ (hk own.x) (hk own.y) (hk own.z)
      (by simp [h1]) (by simp [h2]) (by simp [h3])
      (Nat.le_of_eq h4.symm) (Nat.le_of_eq h5.symm) (Nat.le_of_eq h6.symm) hil]
  rw [List.length_range]
  refine congrArg (fun l => (Except.ok l, _)) ?_
  apply List.map_congr_left
  intro i hi
  have hiN : i < N := hil i hi
  rw [getD_map_ct s own.x i _ (by rw [h1]; exact hiN),
    getD_map_ct s own.y i _ (by rw [h2]; exact hiN),
    getD_map_ct s own.z i _ (by rw [h3]; exact hiN)]
  rfl

theorem sendPhase_ok (sz : SchemeObj → Nat) (own : SatelliteData) (s : Nat)
    (hsz : ∀ o, sz o ≤ SERIAL_BOUND)
    (hv1 : ∀ v ∈ own.x, v < U32_MOD) (hv2 : ∀ v ∈ own.y, v < U32_MOD)
    (hv3 : ∀ v ∈ own.z, v < U32_MOD) :
    sendPhase sz own ⟨s⟩ ⟨s⟩ =
      (.ok ((own.x.map fun v => (⟨s, v⟩ : CtU32)).map (ctBlob sz),
            (own.y.map fun v => (⟨s, v⟩ : CtU32)).map (ctBlob sz),
            (own.z.map fun v => (⟨s, v⟩ : CtU32)).map (ctBlob sz),
            ⟨⟨s⟩⟩),
       List.replicate own.x.length (.serialized .coordCt .safeVersioned) ++
         (List.replicate own.y.length (.serialized .coordCt .safeVersioned) ++
           (List.replicate own.z.length (.serialized .coordCt .safeVersioned) ++
             [.serialized .evalKey .bincode]))) := by
  rw [sendPhase, encryptAxis_ok _ _ hv1, encryptAxis_ok _ _ hv2,
    encryptAxis_ok _ _ hv3]
  simp [wbind, wlift, serializeCtAxis_ok sz hsz, bincode_serialize_key]

theorem evalPhase_ok (sz : SchemeObj → Nat) (own cp : SatelliteData) (s : Nat)
    (active0 : Option Nat) (N : Nat) (hsz : ∀ o, sz o ≤ SERIAL_BOUND)
    (h1 : own.x.length = N) (h2 : own.y.length = N) (h3 : own.z.length = N)
    (h4 : cp.x.length = N) (h5 : cp.y.length = N) (h6 : cp.z.length = N) :
    evalPhase sz
        ((own.x.map fun v => (⟨s, v⟩ : CtU32)).map (ctBlob sz))
        ((own.y.map fun v => (⟨s, v⟩ : CtU32)).map (ctBlob sz))
        ((own.z.map fun v => (⟨s, v⟩ : CtU32)).map (ctBlob sz))
        ⟨⟨s⟩⟩ cp active0 =
      (.ok (((List.range cp.x.length).map fun i =>
          (⟨s, collidesAt own cp i⟩ : CtBool)).map (flagBlob sz)),
       Event.setServerKey s ::
         (List.replicate (7 * cp.x.length) (.hop s) ++
           List.replicate cp.x.length (.serialized .flagCt .safeVersioned)),
       some s) := by
  have hev := evaluate_collisions_enc s own cp N h1 h2 h3 h4 h5 h6
  have hfused : ∀ l : List Nat,
      deserializeCtAxis (List.map (ctBlob sz ∘ fun v => (⟨s, v⟩ : CtU32)) l) =
        .ok (l.map fun v => ⟨s, v⟩) := by
    intro l
    rw [← List.map_map]
    exact deserializeCtAxis_roundtrip sz hsz _
  simp [evalPhase, hfused, bincode_deserialize_key, hev,
    serializeFlagAxis_ok sz hsz]

theorem receivePhase_ok (sz : SchemeObj → Nat) (own cp : SatelliteData)
    (s : Nat) (hsz : ∀ o, sz o ≤ SERIAL_BOUND) :
    receivePhase ⟨s⟩ (((List.range cp.x.length).map fun i =>
        (⟨s, collidesAt own cp i⟩ : CtBool)).map (flagBlob sz)) =
      .ok (collisionSpec own cp, reportCollision (collisionSpec own cp)) := by
  have hk : ∀ c ∈ (List.range cp.x.length).map fun i =>
      (⟨s, collidesAt own cp i⟩ : CtBool), c.key = (⟨s⟩ : ClientKey).id := by
    intro c hc
    rcases List.mem_map.mp hc with ⟨i, _, rfl⟩
    rfl
  have hdec := decryptFlags_ok ⟨s⟩ _ hk
  have hfused :
      deserializeFlagAxis (List.map
          (flagBlob sz ∘ fun i => (⟨s, collidesAt own cp i⟩ : CtBool))
          (List.range cp.x.length)) =
        .ok ((List.range cp.x.length).map fun i => ⟨s, collidesAt own cp i⟩) := by
    rw [← List.map_map]
    exact deserializeFlagAxis_roundtrip sz hsz _
  have hcomp : (CtBool.val ∘ fun i => (⟨s, collidesAt own cp i⟩ : CtBool)) =
      collidesAt own cp := rfl
  simp [receivePhase, hfused, hdec, List.map_map, hcomp, collisionSpec]

theorem direction_spec (sz : SchemeObj → Nat) (own cp : SatelliteData)
    (s : Nat) (active0 : Option Nat) (N : Nat)
    (hsz : ∀ o, sz o ≤ SERIAL_BOUND)
    (h1 : own.x.length = N) (h2 : own.y.length = N) (h3 : own.z.length = N)
    (h4 : cp.x.length = N) (h5 : cp.y.length = N) (h6 : cp.z.length = N)
    (hv1 : ∀ v ∈ own.x, v < U32_MOD) (hv2 : ∀ v ∈ own.y, v < U32_MOD)
    (hv3 : ∀ v ∈ own.z, v < U32_MOD) :
    direction sz own ⟨s⟩ ⟨s⟩ cp active0 =
      (.ok (collisionSpec own cp, reportCollision (collisionSpec own cp)),
       directionEvents N s, some s) := by
  have hsnd := sendPhase_ok sz own s hsz hv1 hv2 hv3
  have heval := evalPhase_ok sz own cp s active0 N hsz h1 h2 h3 h4 h5 h6
  have hrecv := receivePhase_ok sz own cp s hsz
  simp only [List.map_map] at hsnd heval hrecv
  simp only [h1, h2, h3, h4] at hsnd heval hrecv
  simp [direction, hsnd, heval, hrecv, directionEvents, h1, h2, h3, h4]

theorem run_exchange_spec (sz : SchemeObj → Nat) (a b : SatelliteData)
    (sA sB : Nat) (N : Nat) (hsz : ∀ o, sz o ≤ SERIAL_BOUND)
    (ha1 : a.x.length = N) (ha2 : a.y.length = N) (ha3 : a.z.length = N)
    (hb1 : b.x.length = N) (hb2 : b.y.length = N) (hb3 : b.z.length = N)
    (hva1 : ∀ v ∈ a.x, v < U32_MOD) (hva2 : ∀ v ∈ a.y, v < U32_MOD)
    (hva3 : ∀ v ∈ a.z, v < U32_MOD)
    (hvb1 : ∀ v ∈ b.x, v < U32_MOD) (hvb2 : ∀ v ∈ b.y, v < U32_MOD)
    (hvb3 : ∀ v ∈ b.z, v < U32_MOD) :
    run_exchange sz a b sA sB =
      (.ok ((collisionSpec a b, reportCollision (collisionSpec a b)),
            (collisionSpec b a, reportCollision (collisionSpec b a))),
       directionEvents N sA ++ directionEvents N sB,
       some sB) := by
  have hd1 := direction_spec sz a b sA none N hsz ha1 ha2 ha3 hb1 hb2 hb3
    hva1 hva2 hva3
  have hd2 := direction_spec sz b a sB (some sA) N hsz hb1 hb2 hb3 ha1 ha2 ha3
    hvb1 hvb2 hvb3
  simp [run_exchange, generate_keys, hd1, hd2]

theorem beq_nat_comm (m n : Nat) : (m == n) = (n == m) := by
  simp [Nat.beq_eq, decide_eq_decide]
  exact eq_comm

theorem collidesAt_comm (a b : SatelliteData) (i : Nat) :
    collidesAt a b i = collidesAt b a i := by
  unfold collidesAt
  rw [beq_nat_comm (a.x.getD i 0), beq_nat_comm (a.y.getD i 0),
    beq_nat_comm (a.z.getD i 0)]

theorem collisionSpec_getElem (a b : SatelliteData) (i : Nat)
    (h : i < b.x.length) :
    (collisionSpec a b)[i]? = some (collidesAt a b i) := by
  rw [collisionSpec, List.getElem?_map, List.getElem?_range h]
  rfl

theorem collisionSpec_length (a b : SatelliteData) :
    (collisionSpec a b).length = b.x.length := by
  simp [collisionSpec]

theorem foldl_report (l : List Bool) (acc : Bool) :
    l.foldl (fun a b => if b then true else a) acc = (acc || l.any (fun b => b)) := by
  induction l generalizing acc with
  | nil => simp
  | cons b l ih =>
    rw [List.foldl_cons, List.any_cons, ih]
    cases b <;> cases acc <;> simp

theorem reportCollision_any (l : List Bool) :
    reportCollision l = l.any (fun b => b) := by
  rw [reportCollision, foldl_report]
  simp

theorem any_replicate_false (n : Nat) :
    (List.replicate n false).any (fun b => b) = false := by
  induction n with
  | zero => rfl
  | succ n ih => simp [List.replicate_succ, ih]

/-- C1: trajectories sharing their (x,y,z) triple at exactly one index k
yield a decrypted collision flag sequence that is true at k and false at
every other index, in both evaluation directions of the full
encrypt-serialize-deserialize-evaluate-serialize-deserialize-decrypt
pipeline; in particular the concrete scenario of the collision test (sat1
against the sat2 that matches it only at index 0) yields the flags
[true, false, false] from both directions. -/
theorem collision_exact_overlap
    (sz : SchemeObj → Nat) (hsz : ∀ o, sz o ≤ SERIAL_BOUND) (sA sB : Nat)
    (a b : SatelliteData) (N k : Nat)
    (ha1 : a.x.length = N) (ha2 : a.y.length = N) (ha3 : a.z.length = N)
    (hb1 : b.x.length = N) (hb2 : b.y.length = N) (hb3 : b.z.length = N)
    (hva1 : ∀ v ∈ a.x, v < U32_MOD) (hva2 : ∀ v ∈ a.y, v < U32_MOD)
    (hva3 : ∀ v ∈ a.z, v < U32_MOD)
    (hvb1 : ∀ v ∈ b.x, v < U32_MOD) (hvb2 : ∀ v ∈ b.y, v < U32_MOD)
    (hvb3 : ∀ v ∈ b.z, v < U32_MOD)
    (hk : k < N) (hcol : collidesAt a b k = true)
    (hother : ∀ i, i < N → i ≠ k → collidesAt a b i = false) :
    (∃ tr ak, run_exchange sz sat1 sat2_meet sA sB =
       (.ok (([true, false, false], true), ([true, false, false], true)),
        tr, ak)) ∧
    (∃ fl1 f1 fl2 f2 tr ak,
       run_exchange sz a b sA sB = (.ok ((fl1, f1), (fl2, f2)), tr, ak) ∧
       fl1.length = N ∧ fl2.length = N ∧
       fl1[k]? = some true ∧ fl2[k]? = some true ∧
       (∀ i, i < N → i ≠ k →
         fl1[i]? = some false ∧ fl2[i]? = some false)) := by
  constructor
  · have hc := run_exchange_spec sz sat1 sat2_meet sA sB 3 hsz
      (by decide) (by decide) (by decide) (by decide) (by decide) (by decide)
      (by decide) (by decide) (by decide) (by decide) (by decide) (by decide)
    refine ⟨directionEvents 3 sA ++ directionEvents 3 sB, some sB, ?_⟩
    rw [hc]
    rfl
  · have hg := run_exchange_spec sz a b sA sB N hsz ha1 ha2 ha3 hb1 hb2 hb3
      hva1 hva2 hva3 hvb1 hvb2 hvb3
    refine ⟨collisionSpec a b, reportCollision (collisionSpec a b),
      collisionSpec b a, reportCollision (collisionSpec b a),
      directionEvents N sA ++ directionEvents N sB, some sB, hg,
      ?_, ?_, ?_, ?_, ?_⟩
    · rw [collisionSpec_length, hb1]
    · rw [collisionSpec_length, ha1]
    · rw [collisionSpec_getElem a b k (hb1 ▸ hk), hcol]
    · rw [collisionSpec_getElem b a k (ha1 ▸ hk), collidesAt_comm, hcol]
    · intro i hi hik
      constructor
      · rw [collisionSpec_getElem a b i (hb1 ▸ hi), hother i hi hik]
      · rw [collisionSpec_getElem b a i (ha1 ▸ hi), collidesAt_comm,
          hother i hi hik]

/-- Closed instance of the exact-overlap theorem at the collision test's
concrete trajectories, key seeds 0 and 1, and the zero-size codec. -/
theorem collision_exact_overlap_w :
    ∃ fl1 f1 fl2 f2 tr ak,
      run_exchange szZero sat1 sat2_meet 0 1 =
        (.ok ((fl1, f1), (fl2, f2)), tr, ak) ∧
      fl1.length = 3 ∧ fl2.length = 3 ∧
      fl1[0]? = some true ∧ fl2[0]? = some true ∧
      (∀ i, i < 3 → i ≠ 0 → fl1[i]? = some false ∧ fl2[i]? = some false) :=
  (collision_exact_overlap szZero (fun _ => Nat.zero_le _) 0 1 sat1 sat2_meet
    3 0 (by decide) (by decide) (by decide) (by decide) (by decide) (by decide)
    (by decide) (by decide) (by decide) (by decide) (by decide) (by decide)
    (by decide) (by decide) (by decide)).2

/-- C2: trajectories of equal length N sharing no (x,y,z) triple at any
common index yield decrypted collision flags that are false at every index,
in both evaluation directions of the full exchange pipeline. -/
theorem no_overlap_all_false
    (sz : SchemeObj → Nat) (hsz : ∀ o, sz o ≤ SERIAL_BOUND) (sA sB : Nat)
    (a b : SatelliteData) (N : Nat)
    (ha1 : a.x.length = N) (ha2 : a.y.length = N) (ha3 : a.z.length = N)
    (hb1 : b.x.length = N) (hb2 : b.y.length = N) (hb3 : b.z.length = N)
    (hva1 : ∀ v ∈ a.x, v < U32_MOD) (hva2 : ∀ v ∈ a.y, v < U32_MOD)
    (hva3 : ∀ v ∈ a.z, v < U32_MOD)
    (hvb1 : ∀ v ∈ b.x, v < U32_MOD) (hvb2 : ∀ v ∈ b.y, v < U32_MOD)
    (hvb3 : ∀ v ∈ b.z, v < U32_MOD)
    (hnone : ∀ i, i < N → collidesAt a b i = false) :
    ∃ tr ak, run_exchange sz a b sA sB =
      (.ok ((List.replicate N false, false), (List.replicate N false, false)),
       tr, ak) := by
  have hg := run_exchange_spec sz a b sA sB N hsz ha1 ha2 ha3 hb1 hb2 hb3
    hva1 hva2 hva3 hvb1 hvb2 hvb3
  have hrep1 : collisionSpec a b = List.replicate N false := by
    rw [List.eq_replicate_iff]
    constructor
    · rw [collisionSpec_length, hb1]
    · intro x hx
      rcases List.mem_map.mp hx with ⟨i, hi, rfl⟩
      exact hnone i (hb1 ▸ List.mem_range.mp hi)
  have hrep2 : collisionSpec b a = List.replicate N false := by
    rw [List.eq_replicate_iff]
    constructor
    · rw [collisionSpec_length, ha1]
    · intro x hx
      rcases List.mem_map.mp hx with ⟨i, hi, rfl⟩
      rw [collidesAt_comm]
      exact hnone i (ha1 ▸ List.mem_range.mp hi)
  have hrf : reportCollision (List.replicate N false) = false := by
    rw [reportCollision_any, any_replicate_false]
  refine ⟨directionEvents N sA ++ directionEvents N sB, some sB, ?_⟩
  rw [hg, hrep1, hrep2, hrf]

/-- Closed instance of the no-overlap theorem at the no-collision test's
concrete trajectories. -/
theorem no_overlap_all_false_w :
    ∃ tr ak, run_exchange szZero sat1 sat2_apart 0 1 =
      (.ok ((List.replicate 3 false, false), (List.replicate 3 false, false)),
       tr, ak) :=
  no_overlap_all_false szZero (fun _ => Nat.zero_le _) 0 1 sat1 sat2_apart 3
    (by decide) (by decide) (by decide) (by decide) (by decide) (by decide)
    (by decide) (by decide) (by decide) (by decide) (by decide) (by decide)
    (by decide)

/-- C3: under the equal-length precondition and a matching active key, the
evaluator returns exactly one flag per time index of the plaintext, in index
order: flag i is the AND of the three per-axis equalities of ciphertext i
against plaintext i — no reordering, filtering, or deduplication, with all N
flags computed (7N homomorphic operations are performed). -/
theorem evaluator_per_index_structure (s : Nat) (dct : CtU32)
    (cx cy cz : List CtU32) (p : SatelliteData) (N : Nat)
    (hkx : ∀ c ∈ cx, c.key = s) (hky : ∀ c ∈ cy, c.key = s)
    (hkz : ∀ c ∈ cz, c.key = s)
    (hlx : cx.length = N) (hly : cy.length = N) (hlz : cz.length = N)
    (hpx : p.x.length = N) (hpy : p.y.length = N) (hpz : p.z.length = N) :
    evaluate_collisions (some s) cx cy cz p =
      (.ok ((List.range N).map fun i =>
        ⟨s, (((cx.getD i dct).val == p.x.getD i 0) &&
             ((cy.getD i dct).val == p.y.getD i 0)) &&
            ((cz.getD i dct).val == p.z.getD i 0)⟩),
       List.replicate (7 * N) (.hop s)) := by
  have h := evalIndices_ok s dct cx cy cz p N (List.range N) hkx hky hkz
    (Nat.le_of_eq hlx.symm) (Nat.le_of_eq hly.symm) (Nat.le_of_eq hlz.symm)
    (Nat.le_of_eq hpx.symm) (Nat.le_of_eq hpy.symm) (Nat.le_of_eq hpz.symm)
    (fun i hi => List.mem_range.mp hi)
  rw [List.length_range] at h
  rw [evaluate_collisions, hpx]
  exact h

/-- Closed instance of the evaluator structure theorem at a concrete
two-index input. -/
theorem evaluator_per_index_structure_w :
    evaluate_collisions (some 4) ([⟨4, 1⟩, ⟨4, 2⟩] : List CtU32)
        ([⟨4, 1⟩, ⟨4, 2⟩] : List CtU32) ([⟨4, 1⟩, ⟨4, 2⟩] : List CtU32)
        ⟨[1, 5], [1, 2], [1, 2]⟩ =
      (.ok ((List.range 2).map fun i =>
        ⟨4, (((([⟨4, 1⟩, ⟨4, 2⟩] : List CtU32).getD i ⟨0, 0⟩).val ==
                [1, 5].getD i 0) &&
             ((([⟨4, 1⟩, ⟨4, 2⟩] : List CtU32).getD i ⟨0, 0⟩).val ==
                [1, 2].getD i 0)) &&
            ((([⟨4, 1⟩, ⟨4, 2⟩] : List CtU32).getD i ⟨0, 0⟩).val ==
                [1, 2].getD i 0)⟩),
       List.replicate 14 (.hop 4)) :=
  evaluator_per_index_structure 4 ⟨0, 0⟩ ([⟨4, 1⟩, ⟨4, 2⟩] : List CtU32)
    ([⟨4, 1⟩, ⟨4, 2⟩] : List CtU32) ([⟨4, 1⟩, ⟨4, 2⟩] : List CtU32)
    ⟨[1, 5], [1, 2], [1, 2]⟩ 2
    (by decide) (by decide) (by decide) (by decide) (by decide) (by decide)
    (by decide) (by decide) (by decide)

theorem evalIndex_no_oob (active : Option Nat) (cx cy cz : List CtU32)
    (p : SatelliteData) (i : Nat)
    (hx : i < cx.length) (hy : i < cy.length) (hz : i < cz.length)
    (hpx : i < p.x.length) (hpy : i < p.y.length) (hpz : i < p.z.length) :
    (evalIndex active cx cy cz p i).1 ≠ .error (.eval .indexOutOfRange) := by
  have ex := List.getElem?_eq_getElem hx
  have ey := List.getElem?_eq_getElem hy
  have ez := List.getElem?_eq_getElem hz
  have epx := List.getElem?_eq_getElem hpx
  have epy := List.getElem?_eq_getElem hpy
  have epz := List.getElem?_eq_getElem hpz
  cases active with
  | none =>
    simp [evalIndex, wbind, wlift, ctIdx, natIdx, fheEq, fheAnd,
      ex, ey, ez, epx, epy, epz]
  | some k =>
    by_cases h1 : k = cx[i].key
    · by_cases h2 : k = cy[i].key
      · by_cases h3 : k = cz[i].key
        · have h2s : cy[i].key = cx[i].key := (h1.symm.trans h2).symm
          have h3s : cz[i].key = cx[i].key := (h1.symm.trans h3).symm
          simp [evalIndex, wbind, wlift, ctIdx, natIdx, fheEq, fheAnd,
            ex, ey, ez, epx, epy, epz, h1, h2s, h3s]
        · have h2s : cy[i].key = cx[i].key := (h1.symm.trans h2).symm
          have h3n : ¬(cx[i].key = cz[i].key) := fun hh => h3 (h1.trans hh)
          simp [evalIndex, wbind, wlift, ctIdx, natIdx, fheEq, fheAnd,
            ex, ey, ez, epx, epy, epz, h1, h2s, h3n]
      · have h2n : ¬(cx[i].key = cy[i].key) := fun hh => h2 (h1.trans hh)
        simp [evalIndex, wbind, wlift, ctIdx, natIdx, fheEq, fheAnd,
          ex, ey, ez, epx, epy, epz, h1, h2n]
    · simp [evalIndex, wbind, wlift, ctIdx, natIdx, fheEq, fheAnd,
        ex, ey, ez, epx, epy, epz, h1]

theorem evalIndices_no_oob (active : Option Nat) (cx cy cz : List CtU32)
    (p : SatelliteData) (il : List Nat)
    (h : ∀ i ∈ il, i < cx.length ∧ i < cy.length ∧ i < cz.length ∧
      i < p.x.length ∧ i < p.y.length ∧ i < p.z.length) :
    (evalIndices active cx cy cz p il).1 ≠ .error (.eval .indexOutOfRange) := by
  induction il with
  | nil => simp [evalIndices]
  | cons i il ih =>
    obtain ⟨h1, h2, h3, h4, h5, h6⟩ := h i (List.mem_cons_self i il)
    have hhd := evalIndex_no_oob active cx cy cz p i h1 h2 h3 h4 h5 h6
    have htl := ih (fun j hj => h j (List.mem_cons_of_mem i hj))
    rcases hEI : evalIndex active cx cy cz p i with ⟨r1, ev1⟩
    rw [hEI] at hhd
    cases r1 with
    | error e =>
      simp only at hhd
      simp [evalIndices, wbind, hEI]
      exact fun hc => hhd (by rw [hc])
    | ok c =>
      rcases hER : evalIndices active cx cy cz p il with ⟨r2, ev2⟩
      rw [hER] at htl
      cases r2 with
      | error e =>
        simp only at htl
        simp [evalIndices, wbind, hEI, hER]
        exact fun hc => htl (by rw [hc])
      | ok cs =>
        simp [evalIndices, wbind, hEI, hER]

theorem evalIndices_head_err (active : Option Nat) (cx cy cz : List CtU32)
    (p : SatelliteData) (i : Nat) (il : List Nat) (e : PipeError)
    (h : (evalIndex active cx cy cz p i).1 = .error e) :
    (evalIndices active cx cy cz p (i :: il)).1 = .error e := by
  rcases hEI : evalIndex active cx cy cz p i with ⟨r1, ev1⟩
  rw [hEI] at h
  simp only at h
  subst h
  simp [evalIndices, wbind, hEI]

theorem evalIndices_append_err (active : Option Nat) (cx cy cz : List CtU32)
    (p : SatelliteData) (l1 l2 : List Nat) (e : PipeError) (cs : List CtBool)
    (evs : List Event)
    (hok : evalIndices active cx cy cz p l1 = (.ok cs, evs))
    (hbad : (evalIndices active cx cy cz p l2).1 = .error e) :
    (evalIndices active cx cy cz p (l1 ++ l2)).1 = .error e := by
  induction l1 generalizing cs evs with
  | nil => exact hbad
  | cons i l1 ih =>
    rcases hEI : evalIndex active cx cy cz p i with ⟨r1, ev1⟩
    rw [evalIndices, hEI] at hok
    cases r1 with
    | error e1 => simp [wbind] at hok
    | ok c =>
      rcases hER : evalIndices active cx cy cz p l1 with ⟨r2, ev2⟩
      rw [hER] at hok
      cases r2 with
      | error e2 => simp [wbind] at hok
      | ok cs2 =>
        have hmid := ih cs2 ev2 hER
        rcases hE2 : evalIndices active cx cy cz p (l1 ++ l2) with ⟨r3, ev3⟩
        rw [hE2] at hmid
        simp only at hmid
        subst hmid
        simp [List.cons_append, evalIndices, wbind, hEI, hE2]

/-- C9: the Equality Evaluator's contract — under equal per-axis lengths no
index access is out of range (the out-of-range branch is unreachable), and
when the ciphertext trajectory is shorter than the plaintext one the
evaluator fails with the index-out-of-range contract error, not a
cryptographic error. -/
theorem evaluator_length_contract :
    (∀ (active : Option Nat) (cx cy cz : List CtU32) (p : SatelliteData)
        (N : Nat),
      cx.length = N → cy.length = N → cz.length = N →
      p.x.length = N → p.y.length = N → p.z.length = N →
      (evaluate_collisions active cx cy cz p).1 ≠
        .error (.eval .indexOutOfRange)) ∧
    (∀ (s : Nat) (cx cy cz : List CtU32) (p : SatelliteData) (M N : Nat),
      (∀ c ∈ cx, c.key = s) → (∀ c ∈ cy, c.key = s) → (∀ c ∈ cz, c.key = s) →
      cx.length = M → cy.length = M → cz.length = M →
      p.x.length = N → p.y.length = N → p.z.length = N → M < N →
      (evaluate_collisions (some s) cx cy cz p).1 =
        .error (.eval .indexOutOfRange)) := by
  constructor
  · intro active cx cy cz p N hx hy hz hpx hpy hpz
    rw [evaluate_collisions]
    apply evalIndices_no_oob
    intro i hi
    have hiN : i < N := by
      rw [← hpx]
      exact List.mem_range.mp hi
    exact ⟨hx ▸ hiN, hy ▸ hiN, hz ▸ hiN, hpx ▸ hiN, hpy ▸ hiN, hpz ▸ hiN⟩
  · intro s cx cy cz p M N hkx hky hkz hcx hcy hcz hpx hpy hpz hMN
    have hpre := evalIndices_ok s ⟨s, 0⟩ cx cy cz p M (List.range M)
      hkx hky hkz (Nat.le_of_eq hcx.symm) (Nat.le_of_eq hcy.symm)
      (Nat.le_of_eq hcz.symm)
      (hpx ▸ Nat.le_of_lt hMN) (hpy ▸ Nat.le_of_lt hMN)
      (hpz ▸ Nat.le_of_lt hMN)
      (fun i hi => List.mem_range.mp hi)
    have hnone : cx[M]? = none := by
      rw [List.getElem?_eq_none]
      rw [hcx]
    have hbadhead : (evalIndex (some s) cx cy cz p M).1 =
        .error (.eval .indexOutOfRange) := by
      simp [evalIndex, wbind, wlift, ctIdx, hnone]
    obtain ⟨rest, hsp⟩ : ∃ rest, List.range N = List.range M ++ (M :: rest) := by
      obtain ⟨d, hNd⟩ : ∃ d, N = M + (d + 1) := ⟨N - M - 1, by omega⟩
      refine ⟨((List.range d).map Nat.succ).map (fun x => M + x), ?_⟩
      rw [hNd, List.range_add, List.range_succ_eq_map]
      rfl
    rw [evaluate_collisions, hpx, hsp]
    exact evalIndices_append_err (some s) cx cy cz p (List.range M)
      (M :: rest) _ _ _ hpre
      (evalIndices_head_err (some s) cx cy cz p M rest _ hbadhead)

/-- Closed instances of the evaluator length contract: a length-1 matched
input never reaches the out-of-range branch, and an empty ciphertext
trajectory against a length-1 plaintext fails with index-out-of-range. -/
theorem evaluator_length_contract_w :
    (evaluate_collisions none ([⟨0, 5⟩] : List CtU32) ([⟨0, 6⟩] : List CtU32)
        ([⟨0, 7⟩] : List CtU32) ⟨[5], [6], [7]⟩).1 ≠
      .error (.eval .indexOutOfRange) ∧
    (evaluate_collisions (some 0) ([] : List CtU32) ([] : List CtU32)
        ([] : List CtU32) ⟨[5], [6], [7]⟩).1 =
      .error (.eval .indexOutOfRange) :=
  ⟨evaluator_length_contract.1 none ([⟨0, 5⟩] : List CtU32)
      ([⟨0, 6⟩] : List CtU32) ([⟨0, 7⟩] : List CtU32)
      ⟨[5], [6], [7]⟩ 1 (by decide) (by decide) (by decide) (by decide)
      (by decide) (by decide),
   evaluator_length_contract.2 0 ([] : List CtU32) ([] : List CtU32)
      ([] : List CtU32) ⟨[5], [6], [7]⟩ 0 1
      (by decide) (by decide) (by decide) (by decide) (by decide) (by decide)
      (by decide) (by decide) (by decide) (by decide)⟩

theorem keyDisc_replicate_ser (a : Option Nat) (n : Nat) (k : ObjKind)
    (m : SerMethod) (r : List Event) :
    keyDisc a (List.replicate n (.serialized k m) ++ r) = keyDisc a r := by
  induction n with
  | zero => rfl
  | succ n ih => simp [List.replicate_succ, keyDisc, ih]

theorem keyDisc_replicate_hop (s : Nat) (n : Nat) (r : List Event) :
    keyDisc (some s) (List.replicate n (.hop s) ++ r) = keyDisc (some s) r := by
  induction n with
  | zero => rfl
  | succ n ih => simp [List.replicate_succ, keyDisc, ih]

theorem keyDisc_directionEvents (a : Option Nat) (N s : Nat) (r : List Event) :
    keyDisc a (directionEvents N s ++ r) = keyDisc (some s) r := by
  simp [directionEvents, List.append_assoc, keyDisc_replicate_ser,
    keyDisc_replicate_hop, keyDisc]

theorem keyDisc_directionEvents_end (a : Option Nat) (N s : Nat) :
    keyDisc a (directionEvents N s) = true := by
  have h := keyDisc_directionEvents a N s []
  rw [List.append_nil] at h
  rw [h]
  rfl

theorem filter_replicate_neg (p : Event → Bool) (n : Nat) (e : Event)
    (h : p e = false) : (List.replicate n e).filter p = [] := by
  induction n with
  | zero => rfl
  | succ n ih => simp [List.replicate_succ, List.filter_cons, h, ih]

/-- C8: in every successful exchange the trace obeys the activation
discipline — each homomorphic operation runs with the key of its ciphertext
operand installed by the most recent `set_server_key` call — and the trace
contains exactly two activations, A's key before the first evaluation and
B's key before the reverse-direction evaluation, in that order. -/
theorem key_activation_discipline
    (sz : SchemeObj → Nat) (hsz : ∀ o, sz o ≤ SERIAL_BOUND) (sA sB : Nat)
    (a b : SatelliteData) (N : Nat)
    (ha1 : a.x.length = N) (ha2 : a.y.length = N) (ha3 : a.z.length = N)
    (hb1 : b.x.length = N) (hb2 : b.y.length = N) (hb3 : b.z.length = N)
    (hva1 : ∀ v ∈ a.x, v < U32_MOD) (hva2 : ∀ v ∈ a.y, v < U32_MOD)
    (hva3 : ∀ v ∈ a.z, v < U32_MOD)
    (hvb1 : ∀ v ∈ b.x, v < U32_MOD) (hvb2 : ∀ v ∈ b.y, v < U32_MOD)
    (hvb3 : ∀ v ∈ b.z, v < U32_MOD) :
    ∃ r, run_exchange sz a b sA sB =
        (.ok r, directionEvents N sA ++ directionEvents N sB, some sB) ∧
      keyDisc none (directionEvents N sA ++ directionEvents N sB) = true ∧
      (directionEvents N sA ++ directionEvents N sB).filter isActivation =
        [.setServerKey sA, .setServerKey sB] := by
  have hg := run_exchange_spec sz a b sA sB N hsz ha1 ha2 ha3 hb1 hb2 hb3
    hva1 hva2 hva3 hvb1 hvb2 hvb3
  refine ⟨_, hg, ?_, ?_⟩
  · rw [keyDisc_directionEvents none N sA (directionEvents N sB)]
    exact keyDisc_directionEvents_end (some sA) N sB
  · simp [directionEvents, List.filter_append, List.filter_cons, isActivation,
      filter_replicate_neg]

/-- Closed instance of the activation-discipline theorem at the collision
test's concrete data. -/
theorem key_activation_discipline_w :
    ∃ r, run_exchange szZero sat1 sat2_meet 0 1 =
        (.ok r, directionEvents 3 0 ++ directionEvents 3 1, some 1) ∧
      keyDisc none (directionEvents 3 0 ++ directionEvents 3 1) = true ∧
      (directionEvents 3 0 ++ directionEvents 3 1).filter isActivation =
        [.setServerKey 0, .setServerKey 1] :=
  key_activation_discipline szZero (fun _ => Nat.zero_le _) 0 1 sat1 sat2_meet
    3 (by decide) (by decide) (by decide) (by decide) (by decide) (by decide)
    (by decide) (by decide) (by decide) (by decide) (by decide) (by decide)

/-- Counterexample to C5 as stated: in the concrete collision-test run, an
evaluation key is transmitted through plain bincode, and no evaluation key
ever passes through the versioned, size-bounded adapter. -/
theorem eval_key_bincode_cx :
    Event.serialized .evalKey .bincode ∈
      (run_exchange szZero sat1 sat2_meet 0 1).2.1 ∧
    Event.serialized .evalKey .safeVersioned ∉
      (run_exchange szZero sat1 sat2_meet 0 1).2.1 := by
  decide

theorem serMethodsOk_replicate_coord (n : Nat) (r : List Event) :
    serMethodsOk (List.replicate n (.serialized .coordCt .safeVersioned) ++ r) =
      serMethodsOk r := by
  induction n with
  | zero => rfl
  | succ n ih => simp [List.replicate_succ, serMethodsOk, ih]

theorem serMethodsOk_replicate_flag (n : Nat) (r : List Event) :
    serMethodsOk (List.replicate n (.serialized .flagCt .safeVersioned) ++ r) =
      serMethodsOk r := by
  induction n with
  | zero => rfl
  | succ n ih => simp [List.replicate_succ, serMethodsOk, ih]

theorem serMethodsOk_replicate_hop (s : Nat) (n : Nat) (r : List Event) :
    serMethodsOk (List.replicate n (.hop s) ++ r) = serMethodsOk r := by
  induction n with
  | zero => rfl
  | succ n ih => simp [List.replicate_succ, serMethodsOk, ih]

theorem serMethodsOk_directionEvents (N s : Nat) (r : List Event) :
    serMethodsOk (directionEvents N s ++ r) = serMethodsOk r := by
  simp [directionEvents, List.append_assoc, serMethodsOk_replicate_coord,
    serMethodsOk_replicate_flag, serMethodsOk_replicate_hop, serMethodsOk]

/-- C5 as amended: the versioned, 1 MiB-bounded adapter is used for every
transmitted coordinate ciphertext and collision-flag ciphertext, while
every transmitted evaluation key is serialized with plain bincode — not
through the versioned adapter; plaintext values never appear in the
serialization trace at all. -/
theorem serializer_usage_per_kind
    (sz : SchemeObj → Nat) (hsz : ∀ o, sz o ≤ SERIAL_BOUND) (sA sB : Nat)
    (a b : SatelliteData) (N : Nat)
    (ha1 : a.x.length = N) (ha2 : a.y.length = N) (ha3 : a.z.length = N)
    (hb1 : b.x.length = N) (hb2 : b.y.length = N) (hb3 : b.z.length = N)
    (hva1 : ∀ v ∈ a.x, v < U32_MOD) (hva2 : ∀ v ∈ a.y, v < U32_MOD)
    (hva3 : ∀ v ∈ a.z, v < U32_MOD)
    (hvb1 : ∀ v ∈ b.x, v < U32_MOD) (hvb2 : ∀ v ∈ b.y, v < U32_MOD)
    (hvb3 : ∀ v ∈ b.z, v < U32_MOD) :
    ∃ r, run_exchange sz a b sA sB =
        (.ok r, directionEvents N sA ++ directionEvents N sB, some sB) ∧
      serMethodsOk (directionEvents N sA ++ directionEvents N sB) = true ∧
      Event.serialized .evalKey .bincode ∈
        directionEvents N sA ++ directionEvents N sB := by
  have hg := run_exchange_spec sz a b sA sB N hsz ha1 ha2 ha3 hb1 hb2 hb3
    hva1 hva2 hva3 hvb1 hvb2 hvb3
  refine ⟨_, hg, ?_, ?_⟩
  · rw [serMethodsOk_directionEvents N sA (directionEvents N sB)]
    have h := serMethodsOk_directionEvents N sB []
    rw [List.append_nil] at h
    rw [h]
    rfl
  · apply List.mem_append_left
    unfold directionEvents
    refine List.mem_append_right _ (List.mem_append_right _
      (List.mem_append_right _ (List.mem_append_left _ ?_)))
    exact List.mem_singleton_self _

/-- Closed instance of the per-kind serializer-usage theorem at the
collision test's concrete data. -/
theorem serializer_usage_per_kind_w :
    ∃ r, run_exchange szZero sat1 sat2_meet 0 1 =
        (.ok r, directionEvents 3 0 ++ directionEvents 3 1, some 1) ∧
      serMethodsOk (directionEvents 3 0 ++ directionEvents 3 1) = true ∧
      Event.serialized .evalKey .bincode ∈
        directionEvents 3 0 ++ directionEvents 3 1 :=
  serializer_usage_per_kind szZero (fun _ => Nat.zero_le _) 0 1 sat1 sat2_meet
    3 (by decide) (by decide) (by decide) (by decide) (by decide) (by decide)
    (by decide) (by decide) (by decide) (by decide) (by decide) (by decide)

/-- C7: errors are surfaced to the immediate caller as explicit failure
results and propagate unchanged to the top of the pipeline — a deserialized
blob that is oversized, wrongly tagged, or wrongly versioned yields an
explicit recoverable error value (never a crash), and a failure in any
phase becomes the direction's and then the whole exchange's result, with no
error swallowed, transformed, or retried. -/
theorem errors_surfaced :
    (∀ (t : Tag) (b : Blob),
      SERIAL_BOUND < b.size ∨ b.tag ≠ t ∨ b.version ≠ CURRENT_VERSION →
      ∃ e, safe_deserialize_item t b = .error e) ∧
    (∀ (sz : SchemeObj → Nat) (own : SatelliteData) (ck : ClientKey)
        (sk : ServerKey) (cp : SatelliteData) (a0 : Option Nat)
        (e : PipeError) (evs : List Event),
      sendPhase sz own ck sk = (.error e, evs) →
      direction sz own ck sk cp a0 = (.error e, evs, a0)) ∧
    (∀ (sz : SchemeObj → Nat) (own : SatelliteData) (ck : ClientKey)
        (sk : ServerKey) (cp : SatelliteData) (a0 : Option Nat)
        (o : List Blob × List Blob × List Blob × BincodeKeyBlob)
        (evs : List Event) (e : PipeError) (evs2 : List Event)
        (a1 : Option Nat),
      sendPhase sz own ck sk = (.ok o, evs) →
      evalPhase sz o.1 o.2.1 o.2.2.1 o.2.2.2 cp a0 = (.error e, evs2, a1) →
      direction sz own ck sk cp a0 = (.error e, evs ++ evs2, a1)) ∧
    (∀ (sz : SchemeObj → Nat) (a b : SatelliteData) (sA sB : Nat)
        (e : PipeError) (evs : List Event) (ak : Option Nat),
      direction sz a (generate_keys sA).1 (generate_keys sA).2 b none =
        (.error e, evs, ak) →
      run_exchange sz a b sA sB = (.error e, evs, ak)) := by
  refine ⟨?_, ?_, ?_, ?_⟩
  · intro t b h
    unfold safe_deserialize_item safe_deserialize
    split_ifs with h1 h2 h3
    · exact ⟨_, rfl⟩
    · rcases h with hs | ht | hv
      · exact absurd hs h1
      · exact absurd h2 ht
      · exact absurd h3 hv
    · exact ⟨_, rfl⟩
    · exact ⟨_, rfl⟩
  · intro sz own ck sk cp a0 e evs h
    simp [direction, h]
  · intro sz own ck sk cp a0 o evs e evs2 a1 hsnd heval
    simp [direction, hsnd, heval]
  · intro sz a b sA sB e evs ak h
    simp [run_exchange, h]

/-- Closed instances of the error-surfacing theorem: a mistagged blob is
rejected with an explicit error, a range failure in encryption aborts the
direction, an out-of-range evaluation aborts the direction after the send
phase, and a direction failure is the whole exchange's result. -/
theorem errors_surfaced_w :
    (∃ e, safe_deserialize_item .fheUint32 ⟨.fheBool, 0, 8, .boolct ⟨0, true⟩⟩ =
      .error e) ∧
    direction szZero ⟨[4294967296], [0], [0]⟩ ⟨0⟩ ⟨0⟩ ⟨[0], [0], [0]⟩ none =
      (.error .encryptRange, [], none) ∧
    direction szZero ⟨[], [], []⟩ ⟨0⟩ ⟨0⟩ ⟨[1], [], []⟩ none =
      (.error (.eval .indexOutOfRange),
       [.serialized .evalKey .bincode] ++ [.setServerKey 0], some 0) ∧
    run_exchange szZero ⟨[4294967296], [0], [0]⟩ ⟨[0], [0], [0]⟩ 0 1 =
      (.error .encryptRange, [], none) :=
  ⟨errors_surfaced.1 .fheUint32 ⟨.fheBool, 0, 8, .boolct ⟨0, true⟩⟩
      (Or.inr (Or.inl (by decide))),
   errors_surfaced.2.1 szZero ⟨[4294967296], [0], [0]⟩ ⟨0⟩ ⟨0⟩ ⟨[0], [0], [0]⟩
      none .encryptRange [] rfl,
   errors_surfaced.2.2.1 szZero ⟨[], [], []⟩ ⟨0⟩ ⟨0⟩ ⟨[1], [], []⟩ none
      (([], [], [], ⟨⟨0⟩⟩)) [.serialized .evalKey .bincode]
      (.eval .indexOutOfRange) [.setServerKey 0] (some 0) rfl rfl,
   errors_surfaced.2.2.2 szZero ⟨[4294967296], [0], [0]⟩ ⟨[0], [0], [0]⟩ 0 1
      .encryptRange [] none rfl⟩

theorem receivePhase_found (ck : ClientKey) (fb : List Blob)
    (r : List Bool × Bool) (h : receivePhase ck fb = .ok r) :
    r.2 = reportCollision r.1 := by
  unfold receivePhase at h
  split at h
  · exact absurd h (by simp)
  · split at h
    · exact absurd h (by simp)
    · simp only [Except.ok.injEq] at h
      subst h
      rfl

theorem direction_found (sz : SchemeObj → Nat) (own : SatelliteData)
    (ck : ClientKey) (sk : ServerKey) (cp : SatelliteData) (a0 : Option Nat)
    (r : List Bool × Bool) (evs : List Event) (a1 : Option Nat)
    (h : direction sz own ck sk cp a0 = (.ok r, evs, a1)) :
    r.2 = reportCollision r.1 := by
  unfold direction at h
  split at h
  · simp at h
  · split at h
    · simp at h
    · split at h
      · simp at h
      · rename_i rr hrecv
        simp only [Prod.mk.injEq, Except.ok.injEq] at h
        obtain ⟨rfl, -, -⟩ := h
        exact receivePhase_found ck _ rr hrecv

theorem run_found (sz : SchemeObj → Nat) (a b : SatelliteData) (sA sB : Nat)
    (fl1 : List Bool) (f1 : Bool) (fl2 : List Bool) (f2 : Bool)
    (tr : List Event) (ak : Option Nat)
    (h : run_exchange sz a b sA sB = (.ok ((fl1, f1), (fl2, f2)), tr, ak)) :
    f1 = reportCollision fl1 ∧ f2 = reportCollision fl2 := by
  unfold run_exchange at h
  dsimp only at h
  rcases hd1 : direction sz a (generate_keys sA).1 (generate_keys sA).2 b none
    with ⟨r1, evs1, a1⟩
  rw [hd1] at h
  cases r1 with
  | error e => simp at h
  | ok r1 =>
    dsimp only at h
    rcases hd2 : direction sz b (generate_keys sB).1 (generate_keys sB).2 a a1
      with ⟨r2, evs2, a2⟩
    rw [hd2] at h
    cases r2 with
    | error e => simp at h
    | ok r2 =>
      simp only [Prod.mk.injEq, Except.ok.injEq] at h
      obtain ⟨⟨h1, h2⟩, -, -⟩ := h
      subst h1
      subst h2
      exact ⟨direction_found _ _ _ _ _ _ _ _ _ hd1,
        direction_found _ _ _ _ _ _ _ _ _ hd2⟩

/-- C10: the boolean each decrypting party ultimately reports is the
logical OR over all time indices of its decrypted per-index collision
flags — true exactly when at least one index decrypts to true; the
per-index sequence itself is a separate output, not the reported boolean. -/
theorem reported_result_is_or :
    (∀ flags : List Bool, reportCollision flags = flags.any (fun x => x)) ∧
    (∀ flags : List Bool,
      reportCollision flags = true ↔ ∃ x ∈ flags, x = true) ∧
    (∀ (sz : SchemeObj → Nat) (a b : SatelliteData) (sA sB : Nat)
        (fl1 : List Bool) (f1 : Bool) (fl2 : List Bool) (f2 : Bool)
        (tr : List Event) (ak : Option Nat),
      run_exchange sz a b sA sB = (.ok ((fl1, f1), (fl2, f2)), tr, ak) →
      f1 = fl1.any (fun x => x) ∧ f2 = fl2.any (fun x => x)) := by
  refine ⟨reportCollision_any, ?_, ?_⟩
  · intro flags
    rw [reportCollision_any]
    simp [List.any_eq_true]
  · intro sz a b sA sB fl1 f1 fl2 f2 tr ak h
    obtain ⟨h1, h2⟩ := run_found sz a b sA sB fl1 f1 fl2 f2 tr ak h
    rw [h1, h2, reportCollision_any, reportCollision_any]
    exact ⟨rfl, rfl⟩

/-- Closed instances of the reported-result theorem: the OR law on a
concrete flag list, and the pipeline-level law at the collision test's
concrete run. -/
theorem reported_result_is_or_w :
    reportCollision [false, true, false] =
      [false, true, false].any (fun x => x) ∧
    (true = [true, false, false].any (fun x => x) ∧
     true = [true, false, false].any (fun x => x)) :=
  ⟨reported_result_is_or.1 [false, true, false],
   reported_result_is_or.2.2 szZero sat1 sat2_meet 0 1 [true, false, false]
     true [true, false, false] true
     (run_exchange szZero sat1 sat2_meet 0 1).2.1
     (run_exchange szZero sat1 sat2_meet 0 1).2.2 rfl⟩

end SatFhe

